import Mathlib

/-!
# Verification of the BeetConnection session/link/request engine

Shallow embedding of `src/lib/BeetConnection.js` (beetapp/beeteos-js).

Abstract ids (the uuid strings of the source) are modelled as `Nat`.
External libraries (`uuid`, `otpauth`, `crypto-js`, `@noble/ed25519`,
`socket.io-client`) are out-of-scope collaborators; they are modelled by
small deterministic functions that keep exactly the structure the source
relies on (key = function of secret and counter, authenticated symmetric
encryption, injective hashing).  Random draws (`uuidv4`,
`ed.utils.randomPrivateKey`) are passed to each operation as explicit
arguments.  JavaScript promise completions are tracked in an explicit
ledger of future states so that "reject then resolve" settles once, as a
JS promise does, and a statement that throws inside a handler aborts the
handler with the mutations made so far kept, as in JS.
-/

namespace Beeteos

/-- Model of the external `crypto-js` `sha256` over abstract ids:
an injective function on `Nat`. -/
def sha256 (n : Nat) : Nat := n + 1

/-- Model of the external `OTPAuth.HOTP` object.  Only the fields the source
reads or writes are kept (`counter`, `secret`); the constructor arguments
`issuer`/`label`/`algorithm`/`digits` are fixed constants in the source and
do not influence the model.  The source assigns request ids (which may be
`null`) to the counter, hence `Option Nat`. -/
structure HOTP where
  counter : Option Nat
  secret : String
deriving DecidableEq, Repr

/-- Model of `OTPAuth.HOTP.generate`: the one-time key is a deterministic
function of the seeded secret and the current counter. -/
def HOTP.generate (o : HOTP) : String :=
  o.secret ++ "@" ++ (match o.counter with | none => "null" | some n => toString n)

/-- Model of an AES ciphertext produced by the external `crypto-js` library:
an authenticated box remembering the key it was built with and the
plaintext it protects. -/
structure Ciphertext where
  key : String
  data : String
deriving DecidableEq, Repr

/-- Model of `aes.encrypt(data, key).toString()`. -/
def aesEncrypt (data key : String) : Ciphertext := ⟨key, data⟩

/-- Payload of an inbound `api` message: plain data, a ciphertext, or an
error record `{code, message}` (the source reads `msg.payload.code` on the
error path and rejects with `msg.payload`). -/
inductive ApiPayload where
  | plain (s : String)
  | enc (c : Ciphertext)
  | err (code : Nat) (message : String)
deriving DecidableEq, Repr

/-- Reading of `msg.payload.code` as done by the api handler. -/
def payloadCode : ApiPayload → Option Nat
  | .err c _ => some c
  | _ => none

/-- Model of `aes.decrypt(msg.payload, key).toString(ENC)`: succeeds iff the
payload is a ciphertext made with the same one-time key; `none` models the
thrown decryption error caught by the handler. -/
def aesDecrypt (p : ApiPayload) (key : String) : Option String :=
  match p with
  | .enc c => if c.key == key then some c.data else none
  | _ => none

/-- Model of `ed.utils.bytesToHex(await ed.getSharedSecret(privk, beetkey))`
from the external `@noble/ed25519` library: the hex-encoded ECDH shared
secret, a deterministic function of both keys. -/
def ecdhSecretHex (privk beetkey : String) : String :=
  "ecdh:" ++ privk ++ ":" ++ beetkey

/-- Model of `ed.utils.bytesToHex(await ed.getPublicKey(privk))`. -/
def publicKeyHex (privk : String) : String :=
  "pub:" ++ privk

/-- The long-lived linkage record (`this.identity`).  The source builds it
with fields `apphash`, `identityhash`, `chain`, `appName`, `secret`,
`next_id`, `requested` and later merges arbitrary granted-field objects
into it with `Object.assign`; the merged keys live in `extra`. -/
structure Identity where
  apphash : Option String
  identityhash : Option String
  chain : Option String
  appName : Option String
  secret : Option String
  next_id : Option Nat
  requested : Option (List (String × String))
  extra : List (String × String)
deriving DecidableEq, Repr

/-- Model of `Object.assign(base, upd)` on the granted-field records:
keys of `upd` overwrite keys of `base`. -/
def assignList (base upd : List (String × String)) : List (String × String) :=
  base.filter (fun p => upd.all (fun q => q.1 != p.1)) ++ upd

/-- Merge `Object.assign(this.identity, requestedFields)`. -/
def mergeRequested (i : Identity) (req : List (String × String)) : Identity :=
  { i with extra := assignList i.extra req }

/-- The wire `link` event from the wallet: the fields the handler reads
(`linkRequest.id`, `.error`, `.payload.link`, `.payload.authenticate`,
`.payload.existing`, `.payload.identityhash`, `.payload.chain`,
`.payload.requested`). -/
structure LinkResponse where
  id : Nat
  error : Bool
  link : Bool
  authenticate : Bool
  existing : Bool
  identityhash : Option String
  chain : String
  requested : List (String × String)
deriving DecidableEq, Repr

/-- The `authenticated` payload (`authToken.payload` in `setAuth`, `auth.payload`
in the socket handler): `{link, authenticate, pub_key?, requested?}`. -/
structure AuthToken where
  authenticate : Bool
  link : Bool
  pub_key : Option String
  requested : List (String × String)
deriving DecidableEq, Repr

/-- The link object assembled by `link()`:
`{chain, request, pubkey?, next_hash?, identityhash?}`. -/
structure LinkObj where
  chain : String
  request : List String
  pubkey : Option String
  next_hash : Option Nat
  identityhash : Option String
deriving DecidableEq, Repr

/-- Body handed to `sendRequest`: an api call `{method, params, next_hash?}`
or a link object, or the `authenticate` payload emitted by `connect`. -/
inductive ReqBody where
  | api (method : String) (params : String) (next_hash : Option Nat)
  | linkBody (l : LinkObj)
  | authBody (origin appName browser : String) (identityhash : Option String)
deriving DecidableEq, Repr

/-- Assignment `payload.next_hash = ids.next_hash` in `sendRequest`. -/
def setNextHash : ReqBody → Nat → ReqBody
  | .api m p _, h => .api m p (some h)
  | .linkBody l, h => .linkBody { l with next_hash := some h }
  | .authBody o a b i, _ => .authBody o a b i

/-- Model of `JSON.stringify(payload)` for the encrypted api path. -/
def stringifyBody : ReqBody → String
  | .api m p nh =>
      "api:" ++ m ++ ":" ++ p ++ ":" ++ (match nh with | none => "-" | some n => toString n)
  | .linkBody l => "link:" ++ l.chain
  | .authBody _ a _ _ => "auth:" ++ a

/-- The payload field of an emitted request: raw for non-api requests,
a ciphertext for api requests. -/
inductive WirePayload where
  | raw (b : ReqBody)
  | cipher (c : Ciphertext)
deriving DecidableEq, Repr

/-- A request object as handed to `socket.emit`. -/
structure EmittedReq where
  type : String
  id : Option Nat
  payload : WirePayload
deriving DecidableEq, Repr

/-- One generation of a one-time key applied to a payload: records the
shared secret seeding the generator, the counter value at `generate()`
time, and the (plain) payload the key protected. -/
structure KeyUse where
  secret : String
  counter : Option Nat
  payload : String
deriving DecidableEq, Repr

/-- Values a pending promise can settle with. -/
inductive JVal where
  | str (s : String)
  | payload (p : ApiPayload)
  | linkResp (r : LinkResponse)
  | decErr
  | undef
deriving DecidableEq, Repr

/-- State of the promise returned by one `sendRequest` call. -/
inductive FutureState where
  | pending
  | resolved (v : JVal)
  | rejected (v : JVal)
deriving DecidableEq, Repr

/-- A JS promise settles once: later settles are no-ops. -/
def settleOnce (old new : FutureState) : FutureState :=
  match old with
  | .pending => new
  | o => o

/-- The mutable fields of a `BeetConnection` instance.  `socket` models the
presence of `this.socket`; `secret` and `beetkey` are the dynamically
created `this.secret` / `this.beetkey` (absent until first assigned);
`requests` keeps the ids of the pushed pending request objects in push
order (the handlers read only `.id`, `.resolve`, `.reject` of an entry, and
the completion pair is tracked in the `World` ledger below). -/
structure Conn where
  appName : String
  appHash : String
  browser : String
  origin : String
  identity : Option Identity
  id : Option Nat
  next_identification : Option Nat
  connected : Bool
  authenticated : Bool
  linked : Bool
  otp : Option HOTP
  requests : List (Option Nat)
  socket : Bool
  secret : Option String
  beetkey : Option String
deriving DecidableEq, Repr

/-- The `BeetConnection` constructor (lines 13-29). -/
def mkConn (appName appHash browser origin : String) (identity : Option Identity) : Conn :=
  { appName := appName, appHash := appHash, browser := browser, origin := origin,
    identity := identity, id := none, next_identification := none,
    connected := false, authenticated := false, linked := false,
    otp := none, requests := [], socket := false,
    secret := none, beetkey := none }

/-- A connection together with the ledger of the promises its registered
requests settle.  The registry entries capture `resolve`/`reject` of the
promise keyed by the request id; clearing the registry (reset/disconnect)
drops the entries but leaves the promises pending. -/
structure World where
  conn : Conn
  futures : List (Option Nat × FutureState)
deriving DecidableEq, Repr

/-- Look up the state of the first future registered under key `k`. -/
def lookupF : List (Option Nat × FutureState) → Option Nat → Option FutureState
  | [], _ => none
  | (k', s) :: rest, k => if k' == k then some s else lookupF rest k

/-- Settle (once) the first future registered under key `k`. -/
def settleAt (fs : List (Option Nat × FutureState)) (k : Option Nat) (v : FutureState) :
    List (Option Nat × FutureState) :=
  match fs with
  | [] => []
  | (k', s) :: rest =>
      if k' == k then (k', settleOnce s v) :: rest else (k', s) :: settleAt rest k v

def futureAt (w : World) (k : Option Nat) : Option FutureState :=
  lookupF w.futures k

/-- Translation of `reset()` (lines 34-42). -/
def reset (c : Conn) : Conn :=
  { c with connected := false, authenticated := false, identity := none,
           linked := false, socket := false, otp := none, requests := [] }

/-- Translation of `fetch_ids()` (lines 49-63).  `new_id` is the `uuidv4()` draw.
Returns the new state, the consumed id and the hash of the freshly stored
id, or the thrown error. -/
def fetch_ids (c : Conn) (new_id : Nat) :
    Except String (Conn × Option Nat × Nat) :=
  if c.connected && c.authenticated && c.linked then
    let id := c.next_identification
    let c1 := { c with next_identification := some new_id }
    .ok (c1, id, sha256 new_id)
  else
    .error "You must be connected, authorised and linked."

/-- How one `sendRequest` call terminates.  `rejectedNoConn` is the explicit
`reject('No beeteos ws connection.')`; `emitted` is the successful
`socket.emit(type, request)` (the returned promise stays pending in the
ledger); `hung` models a throw inside the `async` promise executor: the
Promise constructor only catches synchronous throws, so the returned
promise never settles. -/
inductive SendOutcome where
  | rejectedNoConn
  | emitted (eventName : String) (req : EmittedReq)
  | hung (err : String)
deriving DecidableEq, Repr

/-- Translation of `sendRequest(type, payload)` (lines 75-98).  `fresh` is the `uuidv4()`
draw used by `fetch_ids` (api path) or as the request id (other paths).
Also returns the one-time-key uses the call performed. -/
def sendRequest (w : World) (ty : String) (body : ReqBody) (fresh : Nat) :
    World × SendOutcome × List KeyUse :=
  if !(w.conn.connected && w.conn.socket) then
    (w, .rejectedNoConn, [])
  else if ty == "api" then
    match fetch_ids w.conn fresh with
    | .error e => (w, .hung e, [])
    | .ok (c1, idOpt, nh) =>
      match c1.otp with
      | none =>
          -- `this.otp.counter = request.id` throws on a null otp
          ({ w with conn := c1 }, .hung "TypeError: otp is null", [])
      | some o =>
        let body1 := setNextHash body nh
        let o1 : HOTP := { o with counter := idOpt }
        let key := HOTP.generate o1
        let pt := stringifyBody body1
        let req : EmittedReq := ⟨ty, idOpt, .cipher (aesEncrypt pt key)⟩
        let c2 := { c1 with otp := some o1, requests := c1.requests ++ [idOpt] }
        ({ conn := c2, futures := w.futures ++ [(idOpt, .pending)] },
         .emitted ty req, [⟨o1.secret, idOpt, pt⟩])
  else
    let req : EmittedReq := ⟨ty, some fresh, .raw body⟩
    let c2 := { w.conn with requests := w.conn.requests ++ [some fresh] }
    ({ conn := c2, futures := w.futures ++ [(some fresh, .pending)] },
     .emitted ty req, [])

/-- Translation of `setAuth(authToken)` (lines 104-110). -/
def setAuth (c : Conn) (t : AuthToken) : Conn :=
  let c1 := { c with authenticated := t.authenticate, linked := t.link }
  if !t.link then { c1 with beetkey := t.pub_key } else c1

/-- Whether a socket handler completed or aborted on a thrown `TypeError`
(e.g. reading a field of a null `otp`/`identity`), or found no matching
registry entry. -/
inductive HandlerOutcome where
  | noMatch
  | handled
  | threw
deriving DecidableEq, Repr

/-- The synchronous body of `connect(identity, ssl, port)` (lines 119-135
and 293): reset when no identity is passed, otherwise adopt it, then store
the socket. -/
def connectInit (c : Conn) (identity : Option Identity) : Conn :=
  let c1 := if identity.isNone then reset c else { c with identity := identity }
  { c1 with socket := true }

/-- The `socket.on("connect")` handler (lines 140-164): set `connected` and
emit the `authenticate` request (built from the captured `identity`
argument; note it is never pushed into `requests`).  `fresh` is the
`uuidv4()` draw for its id. -/
def onConnect (c : Conn) (identity : Option Identity) (fresh : Nat) :
    Conn × EmittedReq :=
  let c1 := { c with connected := true }
  let ih : Option String :=
    match identity with
    | some i => i.identityhash
    | none => none
  (c1, ⟨"authenticate", some fresh, .raw (.authBody c.origin c.appName c.browser ih)⟩)

/-- The `socket.on('authenticated')` handler (lines 166-183).  On
`auth.payload.link` it builds the cipher from `this.identity.secret`
(throwing if `identity` or its `secret` is absent) and merges the granted
fields; otherwise it stores `beetkey`. -/
def onAuthenticated (c : Conn) (auth : AuthToken) : Conn × HandlerOutcome :=
  if auth.link then
    match c.identity with
    | none => (c, .threw)
    | some i =>
      match i.secret with
      | none => (c, .threw)
      | some sec =>
        let c1 := { c with otp := some ⟨some 0, sec⟩ }
        ({ c1 with identity := some (mergeRequested i auth.requested) }, .handled)
  else
    ({ c with beetkey := auth.pub_key }, .handled)

/-- The identity object built by the `link` handler when the response is not
for an existing identity (lines 208-216). -/
def freshIdentity (c : Conn) (resp : LinkResponse) : Identity :=
  { apphash := some c.appHash, identityhash := resp.identityhash,
    chain := some resp.chain, appName := some c.appName,
    secret := c.secret, next_id := c.next_identification,
    requested := some resp.requested, extra := [] }

/-- The `socket.on("link")` handler (lines 189-228).  Note the source does
not return after rejecting an error response: it falls through, updates the
flags and identity, rebuilds the otp from `this.secret` (throwing when that
is absent) and calls resolve (a no-op on the already rejected promise). -/
def onLink (w : World) (resp : LinkResponse) : World × HandlerOutcome :=
  match w.conn.requests.find? (fun rid => rid == some resp.id) with
  | none => (w, .noMatch)
  | some _ =>
    let w1 :=
      if resp.error then
        { w with futures := settleAt w.futures (some resp.id) (.rejected (.linkResp resp)) }
      else w
    let c := w1.conn
    let newIdentity : Identity :=
      match c.identity with
      | some i => if resp.existing then mergeRequested i resp.requested else freshIdentity c resp
      | none => freshIdentity c resp
    let c1 := { c with linked := resp.link, authenticated := resp.authenticate,
                       identity := some newIdentity }
    match c.secret with
    | none => ({ w1 with conn := c1 }, .threw)
    | some sec =>
      let c2 := { c1 with otp := some ⟨some 0, sec⟩ }
      ({ conn := c2,
         futures := settleAt w1.futures (some resp.id) (.resolved (.linkResp resp)) },
       .handled)

/-- An inbound `api` message `{id, error?, encrypted, payload}`. -/
structure ApiMsg where
  id : Nat
  error : Bool
  encrypted : Bool
  payload : ApiPayload
deriving DecidableEq, Repr

/-- The `socket.on("api")` handler (lines 233-267).  On an error it resets
when `msg.payload.code == 2` and rejects the matched future; the source
then falls through to the encrypted/plain branches (where `this.otp` is
null after a reset, so the counter assignment throws).  A caught
decryption error rejects, after which the unconditional
`resolve(decryptedValue)` resolves with `undefined` (a no-op on a settled
promise). -/
def onApi (w : World) (msg : ApiMsg) : World × HandlerOutcome × List KeyUse :=
  match w.conn.requests.find? (fun rid => rid == some msg.id) with
  | none => (w, .noMatch, [])
  | some _ =>
    let w1 :=
      if msg.error then
        let wA := if payloadCode msg.payload == some 2 then { w with conn := reset w.conn } else w
        { wA with futures := settleAt wA.futures (some msg.id) (.rejected (.payload msg.payload)) }
      else w
    if msg.encrypted then
      match w1.conn.otp with
      | none => (w1, .threw, [])
      | some o =>
        let o1 : HOTP := { o with counter := some msg.id }
        let key := HOTP.generate o1
        let w2 := { w1 with conn := { w1.conn with otp := some o1 } }
        match aesDecrypt msg.payload key with
        | some v =>
          ({ w2 with futures := settleAt w2.futures (some msg.id) (.resolved (.str v)) },
           .handled, [⟨o1.secret, some msg.id, v⟩])
        | none =>
          let w3 := { w2 with futures := settleAt w2.futures (some msg.id) (.rejected .decErr) }
          ({ w3 with futures := settleAt w3.futures (some msg.id) (.resolved .undef) },
           .handled, [])
    else
      ({ w1 with futures := settleAt w1.futures (some msg.id) (.resolved (.payload msg.payload)) },
       .handled, [])

/-- The `socket.on("disconnect")` handler (lines 269-274). -/
def onDisconnect (c : Conn) : Conn :=
  { c with connected := false, socket := false, requests := [] }

/-- The `catch` clause of `link` (lines 371-380): runs when the awaited
`sendRequest` promise rejects; clears the identity (and `link` then
returns `undefined`). -/
def linkCatch (w : World) : World :=
  { w with conn := { w.conn with identity := none } }

/-- How one `link` call terminates up to (and including) the send. -/
inductive LinkOutcome where
  | threwNotConnected
  | retNoBeetkey
  | failedImmediately
  | stuck
  | pendingSent (keyAgreementRun : Bool) (eventName : String) (req : EmittedReq)
deriving DecidableEq, Repr

/-- Common tail of `link` (lines 351-383): store the hash-chain cursor,
attach `next_hash = sha256(next_id)`, send the link or relink request, and
run the catch clause when the send rejects immediately.  (When the stored
cursor is absent the source would hash `undefined`; the model maps the
hash over the option.) -/
def linkFinish (w : World) (linkObj : LinkObj) (next_id : Option Nat)
    (keyAgreementRun : Bool) (relinkHash : Option String) (fresh_req_id : Nat) :
    World × LinkOutcome :=
  let w1 := { w with conn := { w.conn with next_identification := next_id } }
  let obj1 := { linkObj with next_hash := next_id.map sha256 }
  let nameBody : String × ReqBody :=
    match relinkHash with
    | some ih => ("relinkRequest", .linkBody { obj1 with identityhash := some ih })
    | none => ("linkRequest", .linkBody obj1)
  match sendRequest w1 nameBody.1 nameBody.2 fresh_req_id with
  | (w2, .rejectedNoConn, _) => (linkCatch w2, .failedImmediately)
  | (w2, .hung _, _) => (w2, .stuck)
  | (w2, .emitted ev req, _) => (w2, .pendingSent keyAgreementRun ev req)

/-- The initial-link branch of `link` (lines 321-349): ECDH key agreement
against the stored `beetkey` with a fresh ephemeral key, a fresh cursor,
and a transmitted public key.  (The source wraps the external calls in
try/catch; the model treats them as total.) -/
def linkViaKeyAgreement (w : World) (linkObj : LinkObj) (privk : String)
    (fresh_next_id fresh_req_id : Nat) : World × LinkOutcome :=
  match w.conn.beetkey with
  | none => (w, .retNoBeetkey)
  | some bk =>
    let w1 := { w with conn := { w.conn with secret := some (ecdhSecretHex privk bk) } }
    let obj1 := { linkObj with pubkey := some (publicKeyHex privk) }
    linkFinish w1 obj1 (some fresh_next_id) true none fresh_req_id

/-- Translation of `link(chain, requestDetails)` (lines 305-383).  `privk` is the ephemeral
`ed.utils.randomPrivateKey()` draw, `fresh_next_id` the `uuidv4()` cursor
draw (both used only on the initial-link branch) and `fresh_req_id` the
`uuidv4()` draw consumed by `sendRequest`. -/
def link (w : World) (chain : String) (requestDetails : List String)
    (privk : String) (fresh_next_id fresh_req_id : Nat) : World × LinkOutcome :=
  if !w.conn.connected then (w, .threwNotConnected) else
  let linkObj : LinkObj := { chain := chain, request := requestDetails,
                             pubkey := none, next_hash := none, identityhash := none }
  match w.conn.identity with
  | some i =>
    match i.identityhash with
    | some ih =>
      let w1 := { w with conn :=
        { w.conn with next_identification := i.next_id, secret := i.secret } }
      linkFinish w1 linkObj i.next_id false (some ih) fresh_req_id
    | none => linkViaKeyAgreement w linkObj privk fresh_next_id fresh_req_id
  | none => linkViaKeyAgreement w linkObj privk fresh_next_id fresh_req_id

/-- The session invariant of the specification:
`linked ⇒ authenticated ⇒ connected` and `cipherState present ⇒ linked`. -/
def SessionInvariant (c : Conn) : Prop :=
  (c.linked = true → c.authenticated = true) ∧
  (c.authenticated = true → c.connected = true) ∧
  (c.otp.isSome = true → c.linked = true)

instance (c : Conn) : Decidable (SessionInvariant c) := by
  unfold SessionInvariant
  infer_instance

/-! ## Helper lemmas about the futures ledger -/

theorem lookupF_settleAt_ne (fs : List (Option Nat × FutureState)) (k k' : Option Nat)
    (v : FutureState) (h : k' ≠ k) :
    lookupF (settleAt fs k v) k' = lookupF fs k' := by
  induction fs with
  | nil => rfl
  | cons p rest ih =>
    obtain ⟨pk, ps⟩ := p
    by_cases hpk : pk = k
    · subst hpk
      have h2 : (pk == k') = false := by simp [Ne.symm h]
      simp [settleAt, lookupF, h2]
    · have h1 : (pk == k) = false := by simp [hpk]
      by_cases hpk' : pk = k'
      · subst hpk'
        simp [settleAt, lookupF, h1]
      · have h2 : (pk == k') = false := by simp [hpk']
        simp [settleAt, lookupF, h1, h2, ih]

theorem lookupF_settleAt_self (fs : List (Option Nat × FutureState)) (k : Option Nat)
    (v s : FutureState) (h : lookupF fs k = some s) :
    lookupF (settleAt fs k v) k = some (settleOnce s v) := by
  induction fs with
  | nil => simp [lookupF] at h
  | cons p rest ih =>
    obtain ⟨pk, ps⟩ := p
    by_cases hpk : pk = k
    · subst hpk
      simp [lookupF] at h
      simp [settleAt, lookupF, h]
    · have h1 : (pk == k) = false := by simp [hpk]
      simp [settleAt, lookupF, h1] at h ⊢
      exact ih h

/-- An api response that finds no registry entry is reported as such, and
conversely every matched response yields `handled` or `threw`. -/
theorem onApi_noMatch_iff (w : World) (msg : ApiMsg) :
    (onApi w msg).2.1 = HandlerOutcome.noMatch ↔
      w.conn.requests.find? (fun rid => rid == some msg.id) = none := by
  unfold onApi
  cases hf : w.conn.requests.find? (fun rid => rid == some msg.id) with
  | none => simp
  | some r =>
    simp only []
    constructor
    · intro h
      exfalso
      revert h
      split <;> (try split) <;> (try split) <;> simp
    · intro h
      exact absurd h (by simp)

/-- Same for link responses. -/
theorem onLink_noMatch_iff (w : World) (resp : LinkResponse) :
    (onLink w resp).2 = HandlerOutcome.noMatch ↔
      w.conn.requests.find? (fun rid => rid == some resp.id) = none := by
  unfold onLink
  cases hf : w.conn.requests.find? (fun rid => rid == some resp.id) with
  | none => simp
  | some r =>
    simp only []
    constructor
    · intro h
      exfalso
      revert h
      split <;> simp
    · intro h
      exact absurd h (by simp)

/-! ## C10 -/

/-- C10: `reset()` sets `connected`, `authenticated` and `linked` to false and
clears `identity`, `socket`, `otp` and the pending-request list, while every
other field of the connection — in particular `secret`,
`next_identification` and `beetkey` — retains its prior value. -/
theorem C10_reset_frame (c : Conn) :
    (reset c).connected = false ∧ (reset c).authenticated = false ∧
    (reset c).linked = false ∧ (reset c).identity = none ∧
    (reset c).socket = false ∧ (reset c).otp = none ∧ (reset c).requests = [] ∧
    (reset c).secret = c.secret ∧
    (reset c).next_identification = c.next_identification ∧
    (reset c).beetkey = c.beetkey ∧ (reset c).appName = c.appName ∧
    (reset c).appHash = c.appHash ∧ (reset c).browser = c.browser ∧
    (reset c).origin = c.origin ∧ (reset c).id = c.id := by
  simp [reset]

/-! ## C1 -/

/-- The link handler never removes registry entries. -/
theorem onLink_requests_eq (w : World) (resp : LinkResponse) :
    (onLink w resp).1.conn.requests = w.conn.requests := by
  unfold onLink
  cases hf : w.conn.requests.find? (fun rid => rid == some resp.id) with
  | none => simp
  | some r =>
    by_cases he : resp.error <;>
      cases hs : w.conn.secret <;>
        simp [he, hs]

/-- The api handler never removes individual registry entries; short of the
error-code-2 reset it leaves the registry unchanged. -/
theorem onApi_requests_eq (w : World) (msg : ApiMsg)
    (hnot2 : msg.error = false ∨ payloadCode msg.payload ≠ some 2) :
    (onApi w msg).1.conn.requests = w.conn.requests := by
  unfold onApi
  cases hf : w.conn.requests.find? (fun rid => rid == some msg.id) with
  | none => simp
  | some r =>
    have hcode : msg.error = true → (payloadCode msg.payload == some 2) = false := by
      intro herr
      rcases hnot2 with h | h
      · rw [herr] at h; cases h
      · simp [h]
    by_cases he : msg.error
    · have hc := hcode he
      by_cases henc : msg.encrypted
      · cases ho : w.conn.otp with
        | none => simp [he, hc, henc, ho]
        | some o =>
          cases hd : aesDecrypt msg.payload (HOTP.generate { o with counter := some msg.id }) <;>
            simp [he, hc, henc, ho, hd]
      · simp [he, hc, henc]
    · by_cases henc : msg.encrypted
      · cases ho : w.conn.otp with
        | none => simp [he, henc, ho]
        | some o =>
          cases hd : aesDecrypt msg.payload (HOTP.generate { o with counter := some msg.id }) <;>
            simp [he, henc, ho, hd]
      · simp [he, henc]

/-- Concrete session for the C1 counterexample: one pending api request with
id 5, response not an error. -/
def c1World : World :=
  { conn := { mkConn "app" "hash" "browser" "origin" none with
      connected := true, authenticated := true, linked := true, socket := true,
      requests := [some 5] },
    futures := [(some 5, .pending)] }

def c1Msg : ApiMsg := ⟨5, false, false, .plain "ok"⟩

/-- C1 counterexample: handling the api response with id 5 does NOT remove
the matched entry — the registry still holds it — and a second response with
the same id again finds a matching entry (it is handled, not dropped as
unmatched), contrary to the claim that the first match removes the entry. -/
theorem C1_counterexample :
    (onApi c1World c1Msg).1.conn.requests = [some 5] ∧
    (onApi (onApi c1World c1Msg).1 c1Msg).2.1 = HandlerOutcome.handled := by
  decide

/-- C1 amended: handling an inbound link or api response never removes the
matched registry entry; except for the registry-wide clearing performed by
the error-code-2 reset, the registry after handling equals the registry
before, so a second response with the same id finds the same entry again
(and is not treated as unmatched).  The matched promise itself can only
settle once, so the repeated match has no further effect on it. -/
theorem C1_registry_entry_not_removed (w : World) (resp : LinkResponse) (msg : ApiMsg)
    (hnot2 : msg.error = false ∨ payloadCode msg.payload ≠ some 2) :
    (onLink w resp).1.conn.requests = w.conn.requests ∧
    (onApi w msg).1.conn.requests = w.conn.requests ∧
    ((onApi w msg).2.1 ≠ HandlerOutcome.noMatch →
      (onApi (onApi w msg).1 msg).2.1 ≠ HandlerOutcome.noMatch) := by
  refine ⟨onLink_requests_eq w resp, onApi_requests_eq w msg hnot2, ?_⟩
  intro h1 h2
  apply h1
  rw [onApi_noMatch_iff]
  have h3 := (onApi_noMatch_iff (onApi w msg).1 msg).mp h2
  rw [onApi_requests_eq w msg hnot2] at h3
  exact h3

def c1wWorld : World :=
  { conn := { mkConn "app" "hash" "browser" "origin" none with
      connected := true, authenticated := true, linked := true, socket := true,
      requests := [some 8] },
    futures := [(some 8, .pending)] }

def c1wMsg : ApiMsg := ⟨8, false, false, .plain "v"⟩

def c1wResp : LinkResponse := ⟨8, false, true, true, false, some "idh", "BTS", []⟩

/-- Witness for `C1_registry_entry_not_removed` at a concrete input. -/
theorem C1_registry_entry_not_removed_witness :
    (onLink c1wWorld c1wResp).1.conn.requests = c1wWorld.conn.requests ∧
    (onApi c1wWorld c1wMsg).1.conn.requests = c1wWorld.conn.requests ∧
    ((onApi c1wWorld c1wMsg).2.1 ≠ HandlerOutcome.noMatch →
      (onApi (onApi c1wWorld c1wMsg).1 c1wMsg).2.1 ≠ HandlerOutcome.noMatch) :=
  C1_registry_entry_not_removed c1wWorld c1wResp c1wMsg (Or.inl rfl)

/-! ## C9 -/

/-- A connection with no channel: as constructed, never connected. -/
def c9NoChannel : World :=
  { conn := mkConn "app" "hash" "browser" "origin" none, futures := [] }

/-- A connection that is connected and authenticated but not yet linked. -/
def c9Unlinked : World :=
  { conn := { mkConn "app" "hash" "browser" "origin" none with
      connected := true, socket := true, authenticated := true, linked := false,
      otp := some ⟨some 0, "sec"⟩ },
    futures := [] }

/-- C9: evaluation of `sendRequest` at the two guarded inputs.  With no
channel the returned future is rejected with the not-connected error and
nothing is registered or emitted, as the claim says.  But an `"api"` call
before linking makes `fetch_ids` throw inside the `async` promise executor,
which the `Promise` constructor does not catch: the returned future is
never rejected (it hangs), no message is emitted and no pending request is
registered — the claim's "fails with a not-linked error rejecting the
returned future" does not hold on the code. -/
theorem C9_guard_eval :
    sendRequest c9NoChannel "api" (.api "getAccount" "" none) 7 =
      (c9NoChannel, .rejectedNoConn, []) ∧
    sendRequest c9Unlinked "api" (.api "getAccount" "" none) 7 =
      (c9Unlinked, .hung "You must be connected, authorised and linked.", []) :=
  ⟨rfl, rfl⟩

/-! ## C4 -/

/-- C4: an inbound api response carrying an error with code 2 performs a full
reset — `connected`, `authenticated` and `linked` become false, Identity and
Cipher are discarded, the registry is emptied (so no later response, api or
link, can match anything: the dropped requests are unresolvable) — and the
matched request's future is rejected with the error payload. -/
theorem C4_code2_full_reset (w : World) (msg : ApiMsg)
    (hfind : w.conn.requests.find? (fun rid => rid == some msg.id) ≠ none)
    (herr : msg.error = true)
    (hcode : payloadCode msg.payload = some 2)
    (hpend : futureAt w (some msg.id) = some FutureState.pending) :
    (onApi w msg).1.conn.connected = false ∧
    (onApi w msg).1.conn.authenticated = false ∧
    (onApi w msg).1.conn.linked = false ∧
    (onApi w msg).1.conn.identity = none ∧
    (onApi w msg).1.conn.otp = none ∧
    (onApi w msg).1.conn.requests = [] ∧
    futureAt (onApi w msg).1 (some msg.id) =
      some (FutureState.rejected (.payload msg.payload)) ∧
    (∀ msg2 : ApiMsg, (onApi (onApi w msg).1 msg2).2.1 = HandlerOutcome.noMatch) ∧
    (∀ resp : LinkResponse, (onLink (onApi w msg).1 resp).2 = HandlerOutcome.noMatch) := by
  cases hf : w.conn.requests.find? (fun rid => rid == some msg.id) with
  | none => exact absurd hf hfind
  | some r =>
    have hrej : lookupF (settleAt w.futures (some msg.id)
        (FutureState.rejected (.payload msg.payload))) (some msg.id) =
        some (FutureState.rejected (.payload msg.payload)) := by
      simpa [settleOnce] using
        lookupF_settleAt_self w.futures (some msg.id)
          (FutureState.rejected (.payload msg.payload)) FutureState.pending hpend
    have hrej2 : lookupF (settleAt (settleAt w.futures (some msg.id)
        (FutureState.rejected (.payload msg.payload))) (some msg.id)
        (FutureState.resolved (.payload msg.payload))) (some msg.id) =
        some (FutureState.rejected (.payload msg.payload)) := by
      simpa [settleOnce] using
        lookupF_settleAt_self _ (some msg.id)
          (FutureState.resolved (.payload msg.payload)) _ hrej
    by_cases henc : msg.encrypted
    · have heq : onApi w msg =
          ({ conn := reset w.conn,
             futures := settleAt w.futures (some msg.id)
               (FutureState.rejected (.payload msg.payload)) },
           HandlerOutcome.threw, []) := by
        simp [onApi, hf, herr, hcode, henc, reset]
      rw [heq]
      refine ⟨rfl, rfl, rfl, rfl, rfl, rfl, hrej, ?_, ?_⟩
      · intro msg2
        rw [onApi_noMatch_iff]
        simp [reset]
      · intro resp
        rw [onLink_noMatch_iff]
        simp [reset]
    · have heq : onApi w msg =
          ({ conn := reset w.conn,
             futures := settleAt (settleAt w.futures (some msg.id)
               (FutureState.rejected (.payload msg.payload))) (some msg.id)
               (FutureState.resolved (.payload msg.payload)) },
           HandlerOutcome.handled, []) := by
        simp [onApi, hf, herr, hcode, henc, reset]
      rw [heq]
      refine ⟨rfl, rfl, rfl, rfl, rfl, rfl, hrej2, ?_, ?_⟩
      · intro msg2
        rw [onApi_noMatch_iff]
        simp [reset]
      · intro resp
        rw [onLink_noMatch_iff]
        simp [reset]

def c4World : World :=
  { conn := { mkConn "app" "hash" "browser" "origin" none with
      connected := true, authenticated := true, linked := true, socket := true,
      otp := some ⟨some 0, "sec"⟩, requests := [some 3, some 4] },
    futures := [(some 3, .pending), (some 4, .pending)] }

def c4Msg : ApiMsg := ⟨3, true, false, .err 2 "fatal"⟩

/-- Witness for `C4_code2_full_reset` at a concrete input. -/
theorem C4_code2_full_reset_witness :
    (onApi c4World c4Msg).1.conn.connected = false ∧
    (onApi c4World c4Msg).1.conn.authenticated = false ∧
    (onApi c4World c4Msg).1.conn.linked = false ∧
    (onApi c4World c4Msg).1.conn.identity = none ∧
    (onApi c4World c4Msg).1.conn.otp = none ∧
    (onApi c4World c4Msg).1.conn.requests = [] ∧
    futureAt (onApi c4World c4Msg).1 (some c4Msg.id) =
      some (FutureState.rejected (.payload c4Msg.payload)) ∧
    (∀ msg2 : ApiMsg, (onApi (onApi c4World c4Msg).1 msg2).2.1 = HandlerOutcome.noMatch) ∧
    (∀ resp : LinkResponse, (onLink (onApi c4World c4Msg).1 resp).2 = HandlerOutcome.noMatch) :=
  C4_code2_full_reset c4World c4Msg (by decide) rfl rfl (by decide)

/-! ## C8 -/

/-- C8: when decryption of a matched encrypted api response fails, only that
request's future is rejected (with the decryption error); the `linked` flag
stays true, no reset happens (`connected`/`authenticated`/`identity` keep
their values), the registry is untouched and every other future is
unaffected. -/
theorem C8_decryption_failure_is_local (w : World) (msg : ApiMsg) (o : HOTP)
    (hfind : w.conn.requests.find? (fun rid => rid == some msg.id) ≠ none)
    (herr : msg.error = false)
    (henc : msg.encrypted = true)
    (hotp : w.conn.otp = some o)
    (hfail : aesDecrypt msg.payload (HOTP.generate { o with counter := some msg.id }) = none)
    (hpend : futureAt w (some msg.id) = some FutureState.pending)
    (hlink : w.conn.linked = true) :
    futureAt (onApi w msg).1 (some msg.id) = some (FutureState.rejected .decErr) ∧
    (onApi w msg).1.conn.linked = true ∧
    (onApi w msg).1.conn.connected = w.conn.connected ∧
    (onApi w msg).1.conn.authenticated = w.conn.authenticated ∧
    (onApi w msg).1.conn.identity = w.conn.identity ∧
    (onApi w msg).1.conn.requests = w.conn.requests ∧
    (∀ k, k ≠ some msg.id → futureAt (onApi w msg).1 k = futureAt w k) := by
  cases hf : w.conn.requests.find? (fun rid => rid == some msg.id) with
  | none => exact absurd hf hfind
  | some r =>
    have heq : onApi w msg =
        ({ conn := { w.conn with otp := some { o with counter := some msg.id } },
           futures := settleAt (settleAt w.futures (some msg.id)
             (FutureState.rejected .decErr)) (some msg.id)
             (FutureState.resolved .undef) },
         HandlerOutcome.handled, []) := by
      simp [onApi, hf, herr, henc, hotp, hfail]
    have hrej : lookupF (settleAt w.futures (some msg.id)
        (FutureState.rejected .decErr)) (some msg.id) =
        some (FutureState.rejected .decErr) := by
      simpa [settleOnce] using
        lookupF_settleAt_self w.futures (some msg.id)
          (FutureState.rejected .decErr) FutureState.pending hpend
    have hrej2 : lookupF (settleAt (settleAt w.futures (some msg.id)
        (FutureState.rejected .decErr)) (some msg.id)
        (FutureState.resolved .undef)) (some msg.id) =
        some (FutureState.rejected .decErr) := by
      simpa [settleOnce] using
        lookupF_settleAt_self _ (some msg.id) (FutureState.resolved .undef) _ hrej
    rw [heq]
    refine ⟨hrej2, hlink, rfl, rfl, rfl, rfl, ?_⟩
    intro k hk
    show lookupF _ k = lookupF w.futures k
    rw [lookupF_settleAt_ne _ _ _ _ hk, lookupF_settleAt_ne _ _ _ _ hk]

def c8World : World :=
  { conn := { mkConn "app" "hash" "browser" "origin" none with
      connected := true, authenticated := true, linked := true, socket := true,
      otp := some ⟨some 0, "sec"⟩, requests := [some 3, some 4] },
    futures := [(some 3, .pending), (some 4, .pending)] }

/-- An encrypted response whose ciphertext was made under a different key
(e.g. a desynchronized counter): decryption fails. -/
def c8Msg : ApiMsg := ⟨3, false, true, .enc ⟨"sec@99", "garbled"⟩⟩

/-- Witness for `C8_decryption_failure_is_local` at a concrete input. -/
theorem C8_decryption_failure_is_local_witness :
    futureAt (onApi c8World c8Msg).1 (some c8Msg.id) =
      some (FutureState.rejected .decErr) ∧
    (onApi c8World c8Msg).1.conn.linked = true ∧
    (onApi c8World c8Msg).1.conn.connected = c8World.conn.connected ∧
    (onApi c8World c8Msg).1.conn.authenticated = c8World.conn.authenticated ∧
    (onApi c8World c8Msg).1.conn.identity = c8World.conn.identity ∧
    (onApi c8World c8Msg).1.conn.requests = c8World.conn.requests ∧
    (∀ k, k ≠ some c8Msg.id → futureAt (onApi c8World c8Msg).1 k = futureAt c8World k) :=
  C8_decryption_failure_is_local c8World c8Msg ⟨some 0, "sec"⟩
    (by decide) rfl rfl rfl (by decide) (by decide) rfl

/-! ## C6 -/

/-- C6: a `link` call with a stored Identity carrying an `identityhash`
(relink) reuses the stored `secret` and `next_id` verbatim as session
secret and hash-chain cursor, performs no elliptic-curve key agreement
(the outcome records `keyAgreementRun = false` and the emitted request
carries no `pubkey`), and sends a `relinkRequest` containing the stored
`identityhash`. -/
theorem C6_relink_reuses_secret (w : World) (chain : String) (details : List String)
    (privk : String) (fnid frid : Nat) (i : Identity) (ihash : String)
    (hconn : w.conn.connected = true) (hsock : w.conn.socket = true)
    (hid : w.conn.identity = some i) (hih : i.identityhash = some ihash) :
    (link w chain details privk fnid frid).1.conn.secret = i.secret ∧
    (link w chain details privk fnid frid).1.conn.next_identification = i.next_id ∧
    (link w chain details privk fnid frid).2 =
      .pendingSent false "relinkRequest"
        ⟨"relinkRequest", some frid,
         .raw (.linkBody ⟨chain, details, none, i.next_id.map sha256, some ihash⟩)⟩ := by
  have hne : (("relinkRequest" : String) == "api") = false := by decide
  simp [link, hconn, hid, hih, linkFinish, sendRequest, hsock, hne]

def c6Identity : Identity :=
  { apphash := some "ah", identityhash := some "idh", chain := some "BTS",
    appName := some "app", secret := some "storedsecret", next_id := some 4,
    requested := some [], extra := [] }

def c6World : World :=
  { conn := { mkConn "app" "hash" "browser" "origin" (some c6Identity) with
      connected := true, authenticated := true, socket := true },
    futures := [] }

/-- Witness for `C6_relink_reuses_secret` at a concrete input. -/
theorem C6_relink_reuses_secret_witness :
    (link c6World "BTS" ["account"] "pk" 6 9).1.conn.secret = c6Identity.secret ∧
    (link c6World "BTS" ["account"] "pk" 6 9).1.conn.next_identification =
      c6Identity.next_id ∧
    (link c6World "BTS" ["account"] "pk" 6 9).2 =
      .pendingSent false "relinkRequest"
        ⟨"relinkRequest", some 9,
         .raw (.linkBody ⟨"BTS", ["account"], none, c6Identity.next_id.map sha256,
                          some "idh"⟩)⟩ :=
  C6_relink_reuses_secret c6World "BTS" ["account"] "pk" 6 9 c6Identity "idh"
    rfl rfl rfl rfl

/-! ## C7 -/

/-- C7: the two-phase correlation scheme.  (1) `fetch_ids` returns the
currently stored `next_identification` as the request id, stores the fresh
draw as the new `next_identification`, and returns
`next_hash = sha256(fresh draw)`.  (2) On the relink branch of `link`, the
`nextHash` sent equals `sha256` of the `next_id` stored by that same call
(the persisted cursor).  (3) On the initial-link branch, the `nextHash`
sent equals `sha256` of the freshly drawn `next_id` stored by that same
call. -/
theorem C7_two_phase_ids :
    (∀ (c : Conn) (new_id : Nat),
      c.connected = true → c.authenticated = true → c.linked = true →
      fetch_ids c new_id =
        .ok ({ c with next_identification := some new_id },
             c.next_identification, sha256 new_id)) ∧
    (∀ (w : World) (chain : String) (details : List String) (privk : String)
        (fnid frid : Nat) (i : Identity) (ihash : String),
      w.conn.connected = true → w.conn.socket = true →
      w.conn.identity = some i → i.identityhash = some ihash →
      (link w chain details privk fnid frid).1.conn.next_identification = i.next_id ∧
      (link w chain details privk fnid frid).2 =
        .pendingSent false "relinkRequest"
          ⟨"relinkRequest", some frid,
           .raw (.linkBody ⟨chain, details, none, i.next_id.map sha256, some ihash⟩)⟩) ∧
    (∀ (w : World) (chain : String) (details : List String) (privk : String)
        (fnid frid : Nat) (bk : String),
      w.conn.connected = true → w.conn.socket = true →
      w.conn.identity = none → w.conn.beetkey = some bk →
      (link w chain details privk fnid frid).1.conn.next_identification = some fnid ∧
      (link w chain details privk fnid frid).2 =
        .pendingSent true "linkRequest"
          ⟨"linkRequest", some frid,
           .raw (.linkBody ⟨chain, details, some (publicKeyHex privk),
                            some (sha256 fnid), none⟩)⟩) := by
  have hne1 : (("relinkRequest" : String) == "api") = false := by decide
  have hne2 : (("linkRequest" : String) == "api") = false := by decide
  refine ⟨?_, ?_, ?_⟩
  · intro c new_id hc ha hl
    simp [fetch_ids, hc, ha, hl]
  · intro w chain details privk fnid frid i ihash hconn hsock hid hih
    simp [link, hconn, hid, hih, linkFinish, sendRequest, hsock, hne1]
  · intro w chain details privk fnid frid bk hconn hsock hid hbk
    simp [link, hconn, hid, linkViaKeyAgreement, hbk, linkFinish, sendRequest, hsock, hne2]

def c7Conn : Conn :=
  { mkConn "app" "hash" "browser" "origin" none with
    connected := true, authenticated := true, linked := true,
    next_identification := some 5 }

def c7Relink : World :=
  { conn := { mkConn "app" "hash" "browser" "origin" (some c6Identity) with
      connected := true, socket := true },
    futures := [] }

def c7Fresh : World :=
  { conn := { mkConn "app" "hash" "browser" "origin" none with
      connected := true, socket := true, beetkey := some "bk" },
    futures := [] }

/-- Witness for `C7_two_phase_ids` at concrete inputs. -/
theorem C7_two_phase_ids_witness :
    (fetch_ids c7Conn 9 =
      .ok ({ c7Conn with next_identification := some 9 },
           c7Conn.next_identification, sha256 9)) ∧
    ((link c7Relink "BTS" ["account"] "pk" 6 9).1.conn.next_identification =
      c6Identity.next_id ∧
     (link c7Relink "BTS" ["account"] "pk" 6 9).2 =
      .pendingSent false "relinkRequest"
        ⟨"relinkRequest", some 9,
         .raw (.linkBody ⟨"BTS", ["account"], none, c6Identity.next_id.map sha256,
                          some "idh"⟩)⟩) ∧
    ((link c7Fresh "BTS" ["account"] "pk" 6 9).1.conn.next_identification = some 6 ∧
     (link c7Fresh "BTS" ["account"] "pk" 6 9).2 =
      .pendingSent true "linkRequest"
        ⟨"linkRequest", some 9,
         .raw (.linkBody ⟨"BTS", ["account"], some (publicKeyHex "pk"),
                          some (sha256 6), none⟩)⟩) :=
  ⟨C7_two_phase_ids.1 c7Conn 9 rfl rfl rfl,
   C7_two_phase_ids.2.1 c7Relink "BTS" ["account"] "pk" 6 9 c6Identity "idh"
     rfl rfl rfl rfl,
   C7_two_phase_ids.2.2 c7Fresh "BTS" ["account"] "pk" 6 9 "bk" rfl rfl rfl rfl⟩

/-! ## C5 -/

/-- A linked session whose current correlation cursor is 5, cipher seeded
with secret "shared". -/
def c5World : World :=
  { conn := { mkConn "app" "hash" "browser" "origin" none with
      connected := true, authenticated := true, linked := true, socket := true,
      next_identification := some 5,
      otp := some ⟨some 0, "shared"⟩ },
    futures := [] }

def c5Send : World × SendOutcome × List KeyUse :=
  sendRequest c5World "api" (.api "m" "p" none) 6

/-- The wallet's response to request 5: encrypted under the one-time key for
counter 5 — the same counter that already encrypted the outgoing request. -/
def c5Msg : ApiMsg := ⟨5, false, true, .enc (aesEncrypt "RESP" (HOTP.generate ⟨some 5, "shared"⟩))⟩

def c5Recv : World × HandlerOutcome × List KeyUse := onApi c5Send.1 c5Msg

/-- C5 counterexample: under the fixed shared secret "shared" the counter
value 5 is used for two different payloads — the outgoing request plaintext
is encrypted under counter 5, and the response plaintext "RESP" is
decrypted under the same counter 5. -/
theorem C5_counterexample :
    c5Send.2.2 = [⟨"shared", some 5, "api:m:p:7"⟩] ∧
    c5Recv.2.2 = [⟨"shared", some 5, "RESP"⟩] ∧
    ("api:m:p:7" : String) ≠ "RESP" := by
  decide

/-- C5 amended: before each one-time key is generated the counter is set to
exactly the message's correlation id, on the encrypt path of `sendRequest`
and on the decrypt path of the api handler alike (so outgoing encryptions
with distinct ids use distinct counters) — but the response to a request is
decrypted under the same counter that encrypted the request, so one counter
value covers both payloads of a request/response pair. -/
theorem C5_counter_equals_correlation_id :
    (∀ (w : World) (body : ReqBody) (fresh : Nat) (o : HOTP),
      w.conn.connected = true → w.conn.socket = true →
      w.conn.authenticated = true → w.conn.linked = true →
      w.conn.otp = some o →
      (sendRequest w "api" body fresh).1.conn.otp =
        some { o with counter := w.conn.next_identification } ∧
      (sendRequest w "api" body fresh).2.1 =
        .emitted "api" ⟨"api", w.conn.next_identification,
          .cipher (aesEncrypt (stringifyBody (setNextHash body (sha256 fresh)))
            (HOTP.generate { o with counter := w.conn.next_identification }))⟩ ∧
      (sendRequest w "api" body fresh).2.2 =
        [⟨o.secret, w.conn.next_identification,
          stringifyBody (setNextHash body (sha256 fresh))⟩]) ∧
    (∀ (w : World) (msg : ApiMsg) (o : HOTP),
      w.conn.requests.find? (fun rid => rid == some msg.id) ≠ none →
      msg.error = false → msg.encrypted = true → w.conn.otp = some o →
      (onApi w msg).1.conn.otp = some { o with counter := some msg.id } ∧
      ∀ u ∈ (onApi w msg).2.2, u.counter = some msg.id ∧ u.secret = o.secret) := by
  constructor
  · intro w body fresh o hc hs ha hl ho
    simp [sendRequest, fetch_ids, hc, hs, ha, hl, ho]
  · intro w msg o hfind herr henc ho
    cases hf : w.conn.requests.find? (fun rid => rid == some msg.id) with
    | none => exact absurd hf hfind
    | some r =>
      cases hd : aesDecrypt msg.payload (HOTP.generate { o with counter := some msg.id }) with
      | none => simp [onApi, hf, herr, henc, ho, hd]
      | some v => simp [onApi, hf, herr, henc, ho, hd]

/-- Witness for `C5_counter_equals_correlation_id` at concrete inputs. -/
theorem C5_counter_equals_correlation_id_witness :
    ((sendRequest c5World "api" (.api "m" "p" none) 6).1.conn.otp =
      some { counter := c5World.conn.next_identification, secret := "shared" } ∧
     (sendRequest c5World "api" (.api "m" "p" none) 6).2.1 =
      .emitted "api" ⟨"api", c5World.conn.next_identification,
        .cipher (aesEncrypt (stringifyBody (setNextHash (.api "m" "p" none) (sha256 6)))
          (HOTP.generate { counter := c5World.conn.next_identification,
                           secret := "shared" }))⟩ ∧
     (sendRequest c5World "api" (.api "m" "p" none) 6).2.2 =
      [⟨"shared", c5World.conn.next_identification,
        stringifyBody (setNextHash (.api "m" "p" none) (sha256 6))⟩]) ∧
    ((onApi c5Send.1 c5Msg).1.conn.otp =
      some { counter := some c5Msg.id, secret := "shared" } ∧
     ∀ u ∈ (onApi c5Send.1 c5Msg).2.2, u.counter = some c5Msg.id ∧ u.secret = "shared") :=
  ⟨C5_counter_equals_correlation_id.1 c5World (.api "m" "p" none) 6 ⟨some 0, "shared"⟩
     rfl rfl rfl rfl rfl,
   C5_counter_equals_correlation_id.2 c5Send.1 c5Msg ⟨some 5, "shared"⟩
     (by decide) rfl rfl (by decide)⟩

/-! ## C2 -/

/-- The invariant depends only on the three flags and the presence of the
cipher. -/
theorem sessionInvariant_congr {c c' : Conn}
    (h1 : c'.linked = c.linked) (h2 : c'.authenticated = c.authenticated)
    (h3 : c'.connected = c.connected) (h4 : c'.otp.isSome = c.otp.isSome) :
    SessionInvariant c → SessionInvariant c' := by
  unfold SessionInvariant
  rw [h1, h2, h3, h4]
  exact id

theorem reset_invariant (c : Conn) : SessionInvariant (reset c) := by
  simp [SessionInvariant, reset]

/-- On success `fetch_ids` only advances the cursor. -/
theorem fetch_ids_conn (c : Conn) (nid : Nat) (c' : Conn) (idh : Option Nat) (nh : Nat)
    (h : fetch_ids c nid = .ok (c', idh, nh)) :
    c' = { c with next_identification := some nid } := by
  unfold fetch_ids at h
  by_cases hg : c.connected && c.authenticated && c.linked
  · simp only [hg, if_true] at h
    cases h
    rfl
  · simp only [hg, if_false] at h
    exact Except.noConfusion h

/-- The call `sendRequest` never changes the session flags nor the presence of the
cipher. -/
theorem sendRequest_flags (w : World) (ty : String) (body : ReqBody) (fresh : Nat) :
    (sendRequest w ty body fresh).1.conn.linked = w.conn.linked ∧
    (sendRequest w ty body fresh).1.conn.authenticated = w.conn.authenticated ∧
    (sendRequest w ty body fresh).1.conn.connected = w.conn.connected ∧
    (sendRequest w ty body fresh).1.conn.otp.isSome = w.conn.otp.isSome := by
  by_cases hg : w.conn.connected && w.conn.socket
  · by_cases hty : (ty == "api")
    · cases hfi : fetch_ids w.conn fresh with
      | error e => simp [sendRequest, hg, hty, hfi]
      | ok res =>
        obtain ⟨c1, idh, nh⟩ := res
        have hc1 : c1 = { w.conn with next_identification := some fresh } :=
          fetch_ids_conn w.conn fresh c1 idh nh hfi
        cases ho : c1.otp with
        | none =>
          rw [hc1] at ho
          simp only [] at ho
          simp [sendRequest, hg, hty, hfi, ho, hc1]
        | some o =>
          rw [hc1] at ho
          simp only [] at ho
          simp [sendRequest, hg, hty, hfi, ho, hc1]
    · simp [sendRequest, hg, hty]
  · simp [sendRequest, hg]

theorem sendRequest_invariant (w : World) (ty : String) (body : ReqBody) (fresh : Nat)
    (h : SessionInvariant w.conn) :
    SessionInvariant ((sendRequest w ty body fresh).1.conn) := by
  obtain ⟨h1, h2, h3, h4⟩ := sendRequest_flags w ty body fresh
  exact sessionInvariant_congr h1 h2 h3 h4 h

/-- The tail of `link` never changes the session flags nor the presence of
the cipher. -/
theorem linkFinish_flags (w : World) (obj : LinkObj) (nid : Option Nat)
    (kar : Bool) (rh : Option String) (frid : Nat) :
    (linkFinish w obj nid kar rh frid).1.conn.linked = w.conn.linked ∧
    (linkFinish w obj nid kar rh frid).1.conn.authenticated = w.conn.authenticated ∧
    (linkFinish w obj nid kar rh frid).1.conn.connected = w.conn.connected ∧
    (linkFinish w obj nid kar rh frid).1.conn.otp.isSome = w.conn.otp.isSome := by
  unfold linkFinish
  cases rh with
  | none =>
    obtain ⟨h1, h2, h3, h4⟩ := sendRequest_flags
      { w with conn := { w.conn with next_identification := nid } } "linkRequest"
      (.linkBody { obj with next_hash := nid.map sha256 }) frid
    rcases hsr : sendRequest
      { w with conn := { w.conn with next_identification := nid } } "linkRequest"
      (.linkBody { obj with next_hash := nid.map sha256 }) frid with ⟨w2, out, uses⟩
    rw [hsr] at h1 h2 h3 h4
    cases out <;> simp_all [linkCatch]
  | some ih =>
    obtain ⟨h1, h2, h3, h4⟩ := sendRequest_flags
      { w with conn := { w.conn with next_identification := nid } } "relinkRequest"
      (.linkBody { { obj with next_hash := nid.map sha256 } with identityhash := some ih }) frid
    rcases hsr : sendRequest
      { w with conn := { w.conn with next_identification := nid } } "relinkRequest"
      (.linkBody { { obj with next_hash := nid.map sha256 } with identityhash := some ih }) frid
      with ⟨w2, out, uses⟩
    rw [hsr] at h1 h2 h3 h4
    cases out <;> simp_all [linkCatch]

/-- The key-agreement branch of `link` never changes the session flags nor
the presence of the cipher. -/
theorem linkViaKeyAgreement_flags (w : World) (obj : LinkObj) (privk : String)
    (fnid frid : Nat) :
    (linkViaKeyAgreement w obj privk fnid frid).1.conn.linked = w.conn.linked ∧
    (linkViaKeyAgreement w obj privk fnid frid).1.conn.authenticated = w.conn.authenticated ∧
    (linkViaKeyAgreement w obj privk fnid frid).1.conn.connected = w.conn.connected ∧
    (linkViaKeyAgreement w obj privk fnid frid).1.conn.otp.isSome = w.conn.otp.isSome := by
  unfold linkViaKeyAgreement
  cases hbk : w.conn.beetkey with
  | none => simp
  | some bk =>
    obtain ⟨f1, f2, f3, f4⟩ := linkFinish_flags
      { w with conn := { w.conn with secret := some (ecdhSecretHex privk bk) } }
      { obj with pubkey := some (publicKeyHex privk) } (some fnid) true none frid
    exact ⟨f1, f2, f3, f4⟩

/-- The call `link` never changes the session flags nor the presence of the cipher. -/
theorem link_flags (w : World) (chain : String) (details : List String)
    (privk : String) (fnid frid : Nat) :
    (link w chain details privk fnid frid).1.conn.linked = w.conn.linked ∧
    (link w chain details privk fnid frid).1.conn.authenticated = w.conn.authenticated ∧
    (link w chain details privk fnid frid).1.conn.connected = w.conn.connected ∧
    (link w chain details privk fnid frid).1.conn.otp.isSome = w.conn.otp.isSome := by
  unfold link
  by_cases hc : w.conn.connected = true
  · rw [if_neg (show ¬((!w.conn.connected) = true) by simp [hc])]
    cases hid : w.conn.identity with
    | some i =>
      dsimp only
      cases hih : i.identityhash with
      | some ihash =>
        dsimp only
        obtain ⟨f1, f2, f3, f4⟩ := linkFinish_flags
          { w with conn :=
            { w.conn with next_identification := i.next_id, secret := i.secret } }
          { chain := chain, request := details, pubkey := none,
            next_hash := none, identityhash := none }
          i.next_id false (some ihash) frid
        exact ⟨f1, f2, f3, f4⟩
      | none =>
        dsimp only
        exact linkViaKeyAgreement_flags w
          { chain := chain, request := details, pubkey := none,
            next_hash := none, identityhash := none } privk fnid frid
    | none =>
      dsimp only
      exact linkViaKeyAgreement_flags w
        { chain := chain, request := details, pubkey := none,
          next_hash := none, identityhash := none } privk fnid frid
  · rw [if_pos (show (!w.conn.connected) = true by
      simp only [Bool.not_eq_true] at hc
      simp [hc])]
    exact ⟨rfl, rfl, rfl, rfl⟩

/-- The connection part of `onApi`'s result: unchanged, reset, or only the
cipher counter advanced. -/
theorem onApi_conn_cases (w : World) (msg : ApiMsg) :
    (onApi w msg).1.conn = w.conn ∨
    (onApi w msg).1.conn = reset w.conn ∨
    (∃ o : HOTP, w.conn.otp = some o ∧
      (onApi w msg).1.conn = { w.conn with otp := some { o with counter := some msg.id } }) := by
  cases hf : w.conn.requests.find? (fun rid => rid == some msg.id) with
  | none => left; simp [onApi, hf]
  | some r =>
    by_cases he : msg.error
    · by_cases h2 : (payloadCode msg.payload == some 2)
      · by_cases henc : msg.encrypted
        · right; left; simp [onApi, hf, he, h2, henc, reset]
        · right; left; simp [onApi, hf, he, h2, henc, reset]
      · by_cases henc : msg.encrypted
        · cases ho : w.conn.otp with
          | none => left; simp [onApi, hf, he, h2, henc, ho]
          | some o =>
            right; right
            refine ⟨o, rfl, ?_⟩
            cases hd : aesDecrypt msg.payload (HOTP.generate { o with counter := some msg.id }) <;>
              simp [onApi, hf, he, h2, henc, ho, hd]
        · left; simp [onApi, hf, he, h2, henc]
    · by_cases henc : msg.encrypted
      · cases ho : w.conn.otp with
        | none => left; simp [onApi, hf, he, henc, ho]
        | some o =>
          right; right
          refine ⟨o, rfl, ?_⟩
          cases hd : aesDecrypt msg.payload (HOTP.generate { o with counter := some msg.id }) <;>
            simp [onApi, hf, he, henc, ho, hd]
      · left; simp [onApi, hf, he, henc]

theorem onApi_invariant (w : World) (msg : ApiMsg) (h : SessionInvariant w.conn) :
    SessionInvariant ((onApi w msg).1.conn) := by
  rcases onApi_conn_cases w msg with hc | hc | ⟨o, ho, hc⟩
  · rw [hc]; exact h
  · rw [hc]; exact reset_invariant w.conn
  · rw [hc]
    exact @sessionInvariant_congr w.conn _ rfl rfl rfl (by simp [ho]) h

theorem connectInit_invariant (c : Conn) (ident : Option Identity)
    (h : SessionInvariant c) : SessionInvariant (connectInit c ident) := by
  unfold connectInit
  cases ident with
  | none =>
    have := reset_invariant c
    simp only [Option.isNone_none, if_true]
    exact sessionInvariant_congr rfl rfl rfl rfl this
  | some i =>
    simp only [Option.isNone_some, if_false]
    exact sessionInvariant_congr rfl rfl rfl rfl h

theorem onConnect_invariant (c : Conn) (ident : Option Identity) (fresh : Nat)
    (h : SessionInvariant c) : SessionInvariant ((onConnect c ident fresh).1) := by
  obtain ⟨h1, h2, h3⟩ := h
  exact ⟨h1, fun _ => rfl, h3⟩

def c2Start : Conn := mkConn "app" "hash" "browser" "origin" none

def c2Tok : AuthToken := ⟨true, true, none, []⟩

def c2Tok2 : AuthToken := ⟨true, false, some "bk", []⟩

def c2AuthConn : Conn :=
  { mkConn "app" "hash" "browser" "origin"
      (some { apphash := none, identityhash := some "idh", chain := none, appName := none,
              secret := some "s", next_id := some 1, requested := none, extra := [] }) with
    connected := true, authenticated := true }

def c2AuthTok : AuthToken := ⟨true, true, none, []⟩

def c2LinkWorld : World :=
  { conn := { mkConn "app" "hash" "browser" "origin" none with
      connected := true, authenticated := true, linked := true, socket := true,
      secret := some "s", otp := some ⟨some 0, "s"⟩, requests := [some 2] },
    futures := [(some 2, .pending)] }

def c2LinkResp : LinkResponse := ⟨2, false, false, false, false, none, "BTS", []⟩

def c2DiscConn : Conn :=
  { mkConn "app" "hash" "browser" "origin" none with
    connected := true, authenticated := true, linked := true, otp := some ⟨some 0, "s"⟩ }

/-- C2 counterexample: `setAuth` does not preserve the session invariant.
From the freshly constructed (disconnected) connection, which satisfies the
invariant, `setAuth` with an authenticated+linked token makes the session
`linked` and `authenticated` while `connected` is still false. -/
theorem C2_counterexample :
    SessionInvariant c2Start ∧ ¬ SessionInvariant (setAuth c2Start c2Tok) := by
  decide

/-- C2 amended: `reset`, `fetch_ids`, `sendRequest`, `link`, the api handler
and both halves of `connect` (the synchronous initialization and the
socket-connect event) preserve the session invariant
`linked ⇒ authenticated ⇒ connected` and `otp present ⇒ linked` — but
`setAuth`, the authenticated handler, the link handler and the disconnect
handler do not: each has a reachable input on which it turns an
invariant-satisfying session into a violating one (`setAuth` copies flags
from the token without regard to `connected`; the authenticated and link
handlers install a cipher regardless of the `linked` flag they leave;
the disconnect handler clears `connected` but not `authenticated`/`linked`). -/
theorem C2_invariant_op_preservation :
    (∀ c : Conn, SessionInvariant (reset c)) ∧
    (∀ (c : Conn) (nid : Nat) (c' : Conn) (idh : Option Nat) (nh : Nat),
      fetch_ids c nid = .ok (c', idh, nh) → SessionInvariant c → SessionInvariant c') ∧
    (∀ (w : World) (ty : String) (body : ReqBody) (fresh : Nat),
      SessionInvariant w.conn → SessionInvariant ((sendRequest w ty body fresh).1.conn)) ∧
    (∀ (w : World) (chain : String) (details : List String) (privk : String)
        (fnid frid : Nat), SessionInvariant w.conn →
      SessionInvariant ((link w chain details privk fnid frid).1.conn)) ∧
    (∀ (w : World) (msg : ApiMsg), SessionInvariant w.conn →
      SessionInvariant ((onApi w msg).1.conn)) ∧
    (∀ (c : Conn) (ident : Option Identity), SessionInvariant c →
      SessionInvariant (connectInit c ident)) ∧
    (∀ (c : Conn) (ident : Option Identity) (fresh : Nat), SessionInvariant c →
      SessionInvariant ((onConnect c ident fresh).1)) ∧
    (SessionInvariant c2Start ∧ ¬ SessionInvariant (setAuth c2Start c2Tok2)) ∧
    (SessionInvariant c2AuthConn ∧
      ¬ SessionInvariant ((onAuthenticated c2AuthConn c2AuthTok).1)) ∧
    (SessionInvariant c2LinkWorld.conn ∧
      ¬ SessionInvariant ((onLink c2LinkWorld c2LinkResp).1.conn)) ∧
    (SessionInvariant c2DiscConn ∧ ¬ SessionInvariant (onDisconnect c2DiscConn)) := by
  refine ⟨reset_invariant, ?_, sendRequest_invariant, ?_, onApi_invariant,
          connectInit_invariant, onConnect_invariant, by decide, by decide,
          by decide, by decide⟩
  · intro c nid c' idh nh h hc
    rw [fetch_ids_conn c nid c' idh nh h]
    exact @sessionInvariant_congr c _ rfl rfl rfl rfl hc
  · intro w chain details privk fnid frid h
    obtain ⟨f1, f2, f3, f4⟩ := link_flags w chain details privk fnid frid
    exact sessionInvariant_congr f1 f2 f3 f4 h

def c2ApiMsg : ApiMsg := ⟨2, false, false, .plain "x"⟩

/-- Witness for `C2_invariant_op_preservation` at concrete inputs. -/
theorem C2_invariant_op_preservation_witness :
    SessionInvariant (reset c2DiscConn) ∧
    SessionInvariant ((onApi c2LinkWorld c2ApiMsg).1.conn) ∧
    SessionInvariant ((sendRequest c2LinkWorld "api" (.api "m" "p" none) 9).1.conn) :=
  ⟨C2_invariant_op_preservation.1 c2DiscConn,
   C2_invariant_op_preservation.2.2.2.2.1 c2LinkWorld c2ApiMsg (by decide),
   C2_invariant_op_preservation.2.2.1 c2LinkWorld "api" (.api "m" "p" none) 9 (by decide)⟩

/-! ## C3 -/

def c3Identity : Identity :=
  { apphash := some "ah", identityhash := some "idh", chain := some "BTS",
    appName := some "app", secret := some "isec", next_id := some 4,
    requested := some [], extra := [] }

def c3World : World :=
  { conn := { mkConn "app" "hash" "browser" "origin" (some c3Identity) with
      connected := true, authenticated := true, socket := true },
    futures := [] }

/-- The wallet rejects the relink request (sent with fresh request id 9). -/
def c3Resp : LinkResponse := ⟨9, true, false, false, false, none, "BTS", []⟩

/-- C3 counterexample: a relink attempt that the wallet rejects.  The pending
future is rejected and the catch clause of `link` clears the Identity, and
`link` returns failure — but, contrary to the claim, a Cipher IS established
by the attempt: the link handler falls through after rejecting and installs
an otp seeded from the session secret, which the catch clause does not
remove. -/
theorem C3_counterexample :
    (linkCatch (onLink (link c3World "BTS" ["account"] "pk" 6 9).1 c3Resp).1).conn.identity
      = none ∧
    futureAt (linkCatch (onLink (link c3World "BTS" ["account"] "pk" 6 9).1 c3Resp).1)
      (some 9) = some (.rejected (.linkResp c3Resp)) ∧
    (linkCatch (onLink (link c3World "BTS" ["account"] "pk" 6 9).1 c3Resp).1).conn.otp
      = some ⟨some 0, "isec"⟩ := by
  decide

/-- C3 amended: for every link/relink attempt rejected by the remote (the
matched link response carries an error), the pending future is rejected, and
the catch clause of `link` then clears the Identity and makes `link` return
failure — but the link handler still installs a Cipher (otp) seeded from the
current session secret, even on the rejected attempt. -/
theorem C3_rejection_clears_identity_not_cipher (w : World) (resp : LinkResponse)
    (sec : String)
    (hfind : w.conn.requests.find? (fun rid => rid == some resp.id) ≠ none)
    (herr : resp.error = true)
    (hpend : futureAt w (some resp.id) = some FutureState.pending)
    (hsec : w.conn.secret = some sec) :
    (linkCatch (onLink w resp).1).conn.identity = none ∧
    futureAt (linkCatch (onLink w resp).1) (some resp.id) =
      some (FutureState.rejected (.linkResp resp)) ∧
    (linkCatch (onLink w resp).1).conn.otp = some ⟨some 0, sec⟩ := by
  cases hf : w.conn.requests.find? (fun rid => rid == some resp.id) with
  | none => exact absurd hf hfind
  | some r =>
    have hrej : lookupF (settleAt w.futures (some resp.id)
        (FutureState.rejected (.linkResp resp))) (some resp.id) =
        some (FutureState.rejected (.linkResp resp)) := by
      simpa [settleOnce] using
        lookupF_settleAt_self w.futures (some resp.id)
          (FutureState.rejected (.linkResp resp)) FutureState.pending hpend
    have hrej2 : lookupF (settleAt (settleAt w.futures (some resp.id)
        (FutureState.rejected (.linkResp resp))) (some resp.id)
        (FutureState.resolved (.linkResp resp))) (some resp.id) =
        some (FutureState.rejected (.linkResp resp)) := by
      simpa [settleOnce] using
        lookupF_settleAt_self _ (some resp.id)
          (FutureState.resolved (.linkResp resp)) _ hrej
    simp [onLink, hf, herr, hsec, linkCatch, futureAt, hrej2]

/-- Witness for `C3_rejection_clears_identity_not_cipher`: the concrete
rejected-relink trace. -/
theorem C3_rejection_clears_identity_not_cipher_witness :
    (linkCatch (onLink (link c3World "BTS" ["account"] "pk" 6 9).1 c3Resp).1).conn.identity
      = none ∧
    futureAt (linkCatch (onLink (link c3World "BTS" ["account"] "pk" 6 9).1 c3Resp).1)
      (some c3Resp.id) = some (FutureState.rejected (.linkResp c3Resp)) ∧
    (linkCatch (onLink (link c3World "BTS" ["account"] "pk" 6 9).1 c3Resp).1).conn.otp
      = some ⟨some 0, "isec"⟩ :=
  C3_rejection_clears_identity_not_cipher
    (link c3World "BTS" ["account"] "pk" 6 9).1 c3Resp "isec"
    (by decide) rfl (by decide) (by decide)

end Beeteos
